import Mathlib

/-
  Verification development for the vs-chat XMPP client/server core.

  The definitions below are a shallow embedding of the connection
  lifecycle and stanza routing engine of the repository:

  - the stanza data model and the iq stanza module of the server
    (src/stanza/server/iq.ts, given as part_005),
  - the client lifecycle coordinator (src/client.ts): the connect guard
    and the at-most-once completion logic around invokeErrorCompleted,
  - the server lifecycle coordinator (src/server.ts): start, stopSync,
    getClientConnections, and the per-connection event handlers that are
    registered in start (connection, online, close).

  JavaScript-level conventions of the embedding: a JS object attribute
  map is a list of key/value pairs whose values may be undefined, so
  attribute reads return Option String; a promise settles at most once,
  so later resolutions are dropped; a thrown exception is an
  Except.error; the null return of stopSync is a dedicated constructor.
  Machine integers of the id counter are modelled as Int, starting at
  Number.MIN_SAFE_INTEGER as in the source.
-/

/-- Modelled from the spec: helpers.normalizeString of helpers.ts, which is
not under src (only its callers are). Per the callers and the spec it turns
any value into a lower-case trimmed string; written structurally on the
character list so that concrete instances evaluate inside the kernel. -/
def normalizeStr (s : String) : String :=
  String.mk
    ((((s.data.map Char.toLower).dropWhile Char.isWhitespace).reverse.dropWhile
        Char.isWhitespace).reverse)

/-- Modelled from the spec: helpers.normalizeString applied to a possibly
undefined value; toStringSafe maps undefined to the empty string. -/
def normalizeOpt (s : Option String) : String :=
  normalizeStr (s.getD "")

/-- Stanza tree as in contracts.ts: name, attrs (values may be undefined,
matching a JS object field explicitly set to undefined), ordered children.
The parent back-reference of the source is not represented, the tree
invariant of the spec makes it derivable. -/
inductive Stanza where
  | mk (name : String) (attrs : List (String × Option String)) (children : List Stanza)

instance : Inhabited Stanza :=
  ⟨Stanza.mk "" [] []⟩

def Stanza.name : Stanza → String
  | .mk n _ _ => n

def Stanza.attrs : Stanza → List (String × Option String)
  | .mk _ a _ => a

def Stanza.children : Stanza → List Stanza
  | .mk _ _ c => c

/-- Reading stanza.attrs of the source: an absent key and a key set to
undefined both read as undefined. -/
def Stanza.attr (s : Stanza) (k : String) : Option String :=
  (s.attrs.lookup k).join

/-- Namespace recognized by the iq stanza module (part_005). -/
def infoNs : String := "http://jabber.org/protocol/disco#info"

/-- Namespace recognized by the iq stanza module (part_005). -/
def itemsNs : String := "http://jabber.org/protocol/disco#items"

/-- Namespace recognized by the iq stanza module (part_005). -/
def byteStreamsNs : String := "http://jabber.org/protocol/bytestreams"

/-- Namespace recognized by the iq stanza module (part_005). -/
def rosterNs : String := "jabber:iq:roster"

/-- Namespace recognized by the iq stanza module (part_005). -/
def streamsNs : String := "http://etherx.jabber.org/streams"

/-- Request handler selected by the switch in the handle function of the iq
stanza module; the source stores a function pointer, the embedding stores a
tag and dispatches on it in iqHandle. -/
inductive IqHandlerKind where
  | discoInfo
  | discoItems
  | byteStreams
  | roster
  | streams

/-- Handler resolution of the handle function of the iq stanza module
(part_005): type attribute must normalize to get, the first child must exist
and be named query, and the child xmlns must be one of the five recognized
namespaces. -/
def resolveIqHandler (s : Stanza) : Option IqHandlerKind :=
  if normalizeOpt (s.attr "type") = "get" then
    match s.children.head? with
    | some child =>
      if normalizeStr child.name = "query" then
        let x := normalizeOpt (child.attr "xmlns")
        if x = infoNs then some IqHandlerKind.discoInfo
        else if x = itemsNs then some IqHandlerKind.discoItems
        else if x = byteStreamsNs then some IqHandlerKind.byteStreams
        else if x = rosterNs then some IqHandlerKind.roster
        else if x = streamsNs then some IqHandlerKind.streams
        else none
      else none
    | none => none
  else none

/-- Embedding of handleStanza_discoInfo of part_005: iq result with from and
to swapped, the request id, and a query child echoing the raw xmlns of the
first request child. -/
def handleStanza_discoInfo (stanza : Stanza) : Option Stanza :=
  let iqID := stanza.attr "id"
  let reqFrom := stanza.attr "from"
  let reqTo := stanza.attr "to"
  let child := stanza.children.head?.getD default
  let xmlns := child.attr "xmlns"
  some (Stanza.mk "iq"
    [("type", some "result"), ("from", reqTo), ("to", reqFrom), ("id", iqID)]
    [Stanza.mk "query" [("xmlns", xmlns)] []])

/-- Embedding of handleStanza_discoItems of part_005, same shape as the
disco info handler. -/
def handleStanza_discoItems (stanza : Stanza) : Option Stanza :=
  let iqID := stanza.attr "id"
  let reqFrom := stanza.attr "from"
  let reqTo := stanza.attr "to"
  let child := stanza.children.head?.getD default
  let xmlns := child.attr "xmlns"
  some (Stanza.mk "iq"
    [("type", some "result"), ("from", reqTo), ("to", reqFrom), ("id", iqID)]
    [Stanza.mk "query" [("xmlns", xmlns)] []])

/-- Embedding of handleStanza_byteStreams of part_005: the source builds the
iq result with swapped addressing and the request id but never appends a
query child. -/
def handleStanza_byteStreams (stanza : Stanza) : Option Stanza :=
  let iqID := stanza.attr "id"
  let reqFrom := stanza.attr "from"
  let reqTo := stanza.attr "to"
  some (Stanza.mk "iq"
    [("type", some "result"), ("from", reqTo), ("to", reqFrom), ("id", iqID)]
    [])

/-- Embedding of handleStanza_jabber_iq_roaster of part_005: the source sets
only type, to and id on the response, the from attribute is never set, then
appends the query child. -/
def handleStanza_jabber_iq_roaster (stanza : Stanza) : Option Stanza :=
  let iqID := stanza.attr "id"
  let reqFrom := stanza.attr "from"
  let child := stanza.children.head?.getD default
  let xmlns := child.attr "xmlns"
  some (Stanza.mk "iq"
    [("type", some "result"), ("to", reqFrom), ("id", iqID)]
    [Stanza.mk "query" [("xmlns", xmlns)] []])

/-- Embedding of handleStanza_streams of part_005: the function body is
empty, so the handler returns undefined. -/
def handleStanza_streams (_stanza : Stanza) : Option Stanza :=
  none

/-- Fallback response built by the handle function of the iq stanza module
when no handler produced a response: iq of type error containing an error
child containing an unexpected-request element with the xmpp-stanzas
namespace. -/
def iqErrorResponse : Stanza :=
  Stanza.mk "iq" [("type", some "error")]
    [Stanza.mk "error" []
      [Stanza.mk "unexpected-request"
        [("xmlns", some "urn:ietf:params:xml:ns:xmpp-stanzas")] []]]

/-- Embedding of the exported handle function of the iq stanza module
(part_005): resolve a request handler, run it, and fall back to the
standard error response when no response was produced; the returned stanza
is the one sent over the originating connection. -/
def iqHandle (stanza : Stanza) : Stanza :=
  let response :=
    match resolveIqHandler stanza with
    | some IqHandlerKind.discoInfo => handleStanza_discoInfo stanza
    | some IqHandlerKind.discoItems => handleStanza_discoItems stanza
    | some IqHandlerKind.byteStreams => handleStanza_byteStreams stanza
    | some IqHandlerKind.roster => handleStanza_jabber_iq_roaster stanza
    | some IqHandlerKind.streams => handleStanza_streams stanza
    | none => none
  match response with
  | some r => r
  | none => iqErrorResponse

/-- Transcription of the premise of claim C3: an inbound iq of type get
whose first child is a query element with a recognized namespace. -/
def specC3Premise (req : Stanza) : Bool :=
  (normalizeOpt (req.attr "type") == "get") &&
  (match req.children.head? with
   | some c =>
     (normalizeStr c.name == "query") &&
     (let x := normalizeOpt (c.attr "xmlns")
      (x == infoNs) || (x == itemsNs) || (x == byteStreamsNs) ||
      (x == rosterNs) || (x == streamsNs))
   | none => false)

/-- Transcription of the conclusion of claim C3: the response is an iq of
type result with to and from swapped relative to the request, the same id,
and a query child echoing the namespace of the first request child. -/
def specC3Conclusion (req resp : Stanza) : Bool :=
  (resp.name == "iq") &&
  (resp.attr "type" == some "result") &&
  (resp.attr "to" == req.attr "from") &&
  (resp.attr "from" == req.attr "to") &&
  (resp.attr "id" == req.attr "id") &&
  (resp.children.any fun c =>
    (c.name == "query") &&
    (c.attr "xmlns" ==
      (match req.children.head? with
       | some ch => ch.attr "xmlns"
       | none => none)))

/-- Concrete byte-streams request used to settle claim C3. -/
def byteStreamsRequest : Stanza :=
  Stanza.mk "iq"
    [("type", some "get"), ("id", some "1"),
     ("from", some "a@x"), ("to", some "b@x")]
    [Stanza.mk "query" [("xmlns", some "http://jabber.org/protocol/bytestreams")] []]

/-- State of one connect attempt of the client (src/client.ts): the shared
completedErrorInvoked flag captured by the closures, the promise of the
connect call (a JS promise settles at most once, later resolutions are
dropped), the list of outcomes actually delivered to the caller, and the
error log entries written by invokeErrorCompleted. -/
structure AttemptState where
  completedErrorInvoked : Bool := false
  settled : Option (Except String Bool) := none
  deliveries : List (Except String Bool) := []
  errorLog : List String := []

/-- Modelled from the spec: helpers.createSimplePromiseCompletedAction of
helpers.ts, which is not under src (only its callers are). It forwards an
error to reject and a result to resolve; since the underlying promise
settles at most once, a call after the promise settled delivers nothing. -/
def attemptCompleted (st : AttemptState) (v : Except String Bool) : AttemptState :=
  match st.settled with
  | some _ => st
  | none => { st with settled := some v, deliveries := st.deliveries ++ [v] }

/-- Embedding of invokeErrorCompleted of connect in src/client.ts: a falsy
error is ignored, an error after the flag was set is only logged, otherwise
the flag is set and the error is forwarded to completed. -/
def invokeErrorCompleted (st : AttemptState) (err : Option String) : AttemptState :=
  match err with
  | none => st
  | some e =>
    if st.completedErrorInvoked then
      { st with errorLog := st.errorLog ++ [e] }
    else
      attemptCompleted { st with completedErrorInvoked := true } (Except.error e)

/-- Transport events that can reach the completion logic of one connect
attempt after submission: the online event and error events (err may be
falsy). -/
inductive AttemptEvent where
  | online
  | error (err : Option String)

/-- Dispatch of one transport event of the attempt: the online handler calls
completed with true, the error handler calls invokeErrorCompleted. -/
def attemptStep (st : AttemptState) (e : AttemptEvent) : AttemptState :=
  match e with
  | AttemptEvent.online => attemptCompleted st (Except.ok true)
  | AttemptEvent.error err => invokeErrorCompleted st err

/-- Run of one connect attempt over a list of transport events, from the
fresh attempt state created at submission. -/
def runAttempt (evs : List AttemptEvent) : AttemptState :=
  evs.foldl attemptStep {}

/-- Client session state relevant to the connect guard of src/client.ts:
the client field is set only by the online handler of an attempt; the two
counters are observation points of the embedding counting submitted attempts
and constructed transports. -/
structure ClientSessionState where
  client : Option Nat := none
  pendingAttempts : Nat := 0
  transportsCreated : Nat := 0
deriving Repr, DecidableEq

/-- Synchronous part of connect of src/client.ts: when the client field is
set the call completes with false and touches nothing, otherwise a new
transport is constructed and its connect is initiated, with no immediate
completion. -/
def connectSubmit (st : ClientSessionState) : Option Bool × ClientSessionState :=
  if st.client.isSome then
    (some false, st)
  else
    (none,
      { st with
        pendingAttempts := st.pendingAttempts + 1,
        transportsCreated := st.transportsCreated + 1 })

/-- Number.MIN_SAFE_INTEGER, the initial value of the module level counter
nextClientConnectionId of src/server.ts. -/
def minSafeInteger : Int := -9007199254740991

/-- Server state of src/server.ts plus the observation points of the
embedding. The first four fields are the fields of the source: the module
level id counter, the stopping flag, whether the server field is set, and
the connections registry (none models both undefined before the first
successful start and null after a stop). The remaining fields record the
library side facts the handlers react to and the externally visible
effects: admitted lists the client tags for which the connection handler
attached per-client handlers, together with the id given to the
ClientConnection record built there; onlined lists the tags whose session
fired the online event; closedTransports lists the tags whose transport
this code disconnected; the counters record emitted started and stopped
notifications, calls into stop and close of the underlying library server,
and error log lines written by catch blocks of the handlers. -/
structure ServerState where
  nextClientConnectionId : Int := minSafeInteger
  isStopping : Bool := false
  serverRunning : Bool := false
  connections : Option (List Int) := none
  boundPort : Nat := 0
  boundDomain : String := ""
  admitted : List (Nat × Int) := []
  onlined : List Nat := []
  closedTransports : List Nat := []
  startedEmits : Nat := 0
  stoppedEmits : Nat := 0
  libServerStopCalls : Nat := 0
  errorLogLines : Nat := 0
deriving Repr, DecidableEq

/-- Options of start of src/server.ts. -/
structure ServerOptions where
  domain : Option String := none
  port : Option Nat := none
deriving Repr, DecidableEq

/-- Modelled from the spec: parseInt over helpers.toStringSafe of the port
option; an absent port parses to NaN and falls back to DEFAULT_PORT 5222 of
contracts.ts. -/
def portOrDefault (p : Option Nat) : Nat :=
  p.getD 5222

/-- Domain resolution of start of src/server.ts: the normalized domain
option, or the controller name when it normalizes to the empty string. -/
def domainOrDefault (d : Option String) (controllerName : String) : String :=
  let n := normalizeOpt d
  if n = "" then controllerName else n

/-- Embedding of start of src/server.ts for an attempt whose listening
event fires: when the server field is already set the promise resolves
false with no side effects; otherwise, when the bind succeeds, an empty
registry is created, the server field is set, started is emitted and the
promise resolves true; when the bind fails the error is surfaced and no
registry is created. -/
def serverStart (st : ServerState) (opts : ServerOptions)
    (controllerName : String) (bindOk : Bool) : Except Unit Bool × ServerState :=
  if st.serverRunning then
    (Except.ok false, st)
  else
    let port := portOrDefault opts.port
    let domain := domainOrDefault opts.domain controllerName
    if bindOk then
      (Except.ok true,
        { st with
          serverRunning := true,
          connections := some [],
          boundPort := port,
          boundDomain := domain,
          startedEmits := st.startedEmits + 1 })
    else
      (Except.error (), st)

/-- Return value of stopSync of src/server.ts: the declared type is
boolean, but the guarded path returns null; inProgress models that null. -/
inductive StopResult where
  | inProgress
  | result (b : Bool)
deriving Repr, DecidableEq

/-- Embedding of stopSync of src/server.ts. When the stopping flag is set
the call returns null at once. Otherwise the flag is set, and reset by the
finally block on every exit path: no running server returns false; else
stop and close of the underlying library server are called (libStopThrows
models those calls throwing, in which case the exception propagates with
the flag reset and the fields untouched); on success the registry is
discarded, the server field is cleared, stopped is emitted and true is
returned. No per connection close is performed on the registry records. -/
def stopSync (st : ServerState) (libStopThrows : Bool) :
    Except Unit StopResult × ServerState :=
  if st.isStopping then
    (Except.ok StopResult.inProgress, st)
  else
    if !st.serverRunning then
      (Except.ok (StopResult.result false), { st with isStopping := false })
    else if libStopThrows then
      (Except.error (),
        { st with
          isStopping := false,
          libServerStopCalls := st.libServerStopCalls + 1 })
    else
      (Except.ok (StopResult.result true),
        { st with
          isStopping := false,
          serverRunning := false,
          connections := none,
          stoppedEmits := st.stoppedEmits + 1,
          libServerStopCalls := st.libServerStopCalls + 1 })

/-- Embedding of getClientConnections of src/server.ts: the source returns
this._connections.filter(x => x), which dereferences the registry, so a
null or undefined registry raises a TypeError; a live registry returns a
freshly allocated copy (every stored record is truthy, so the filter keeps
all of them). -/
def getClientConnections (st : ServerState) : Except Unit (List Int) :=
  match st.connections with
  | none => Except.error ()
  | some l => Except.ok l

/-- Embedding of the connection handler registered in start of
src/server.ts: while the stopping flag is set the fresh client transport is
disconnected at once and nothing is registered; otherwise a
ClientConnection record is built with the next id, the counter is bumped,
and the per-client handlers are attached (the tag becomes admitted). -/
def onConnection (st : ServerState) (c : Nat) : ServerState :=
  if st.isStopping then
    { st with closedTransports := st.closedTransports ++ [c] }
  else
    { st with
      admitted := st.admitted ++ [(c, st.nextClientConnectionId)],
      nextClientConnectionId := st.nextClientConnectionId + 1 }

/-- Embedding of the online handler registered in start of src/server.ts:
the handler exists only for admitted tags; the library session reaches
online, then the handler pushes the ClientConnection record on the
registry; when the registry is null or undefined the push throws and the
catch block only logs. -/
def onOnline (st : ServerState) (c : Nat) : ServerState :=
  match st.admitted.lookup c with
  | none => st
  | some id =>
    let st1 := { st with onlined := st.onlined ++ [c] }
    match st1.connections with
    | some l => { st1 with connections := some (l ++ [id]) }
    | none => { st1 with errorLogLines := st1.errorLogLines + 1 }

/-- Embedding of the close handler registered in start of src/server.ts:
the handler exists only for admitted tags; it disconnects the transport of
the record and, in its finally block, removes every registry entry with the
id of the record when the registry is non null (the splice loop removes the
single matching record, ids are unique). -/
def onClose (st : ServerState) (c : Nat) : ServerState :=
  match st.admitted.lookup c with
  | none => st
  | some id =>
    let st1 := { st with closedTransports := st.closedTransports ++ [c] }
    match st1.connections with
    | some l => { st1 with connections := some (l.filter (fun x => x != id)) }
    | none => st1

/-- Events of one server process run: the three library events dispatched
to the handlers registered in start, a start call whose bind succeeds, and
a stop call whose library stop does not throw. -/
inductive ServerEvent where
  | connection (c : Nat)
  | online (c : Nat)
  | close (c : Nat)
  | startOk (controllerName : String)
  | stopCall
deriving Repr, DecidableEq

/-- Dispatch of one server event. -/
def serverStep (st : ServerState) (e : ServerEvent) : ServerState :=
  match e with
  | ServerEvent.connection c => onConnection st c
  | ServerEvent.online c => onOnline st c
  | ServerEvent.close c => onClose st c
  | ServerEvent.startOk n => (serverStart st {} n true).2
  | ServerEvent.stopCall => (stopSync st false).2

/-- Run of the server machine from the fresh process state. -/
def serverRun (evs : List ServerEvent) : ServerState :=
  evs.foldl serverStep {}

/-- Ids handed out so far are all below the counter. -/
def IdsBounded (s : ServerState) : Prop :=
  ∀ p ∈ s.admitted, p.2 < s.nextClientConnectionId

/-- Registry description of the spec: a record is in the registry exactly
when its session is online, phrased on the embedding as: the registry is
live and holds an id exactly when some admitted tag carries that id, has
fired online, and its transport has not been closed. -/
def RegMatch (s : ServerState) : Prop :=
  ∃ l, s.connections = some l ∧
    ∀ id : Int, id ∈ l ↔
      ∃ c, (c, id) ∈ s.admitted ∧ c ∈ s.onlined ∧ c ∉ s.closedTransports

/-- Invariant bundle for the registry correspondence: the server is live
and not stopping, ids are bounded by the counter and pairwise distinct,
tags are pairwise distinct, and the registry matches the online sessions. -/
def ServerInv (s : ServerState) : Prop :=
  s.isStopping = false ∧
  s.serverRunning = true ∧
  IdsBounded s ∧
  (s.admitted.map Prod.snd).Nodup ∧
  (s.admitted.map Prod.fst).Nodup ∧
  RegMatch s

/-- Library event contract: a connection event carries a tag never seen
before; online fires once, for an admitted tag whose transport is not
closed; close fires for an admitted tag whose transport is not closed. -/
def validEvent (s : ServerState) : ServerEvent → Prop
  | ServerEvent.connection c =>
      s.admitted.lookup c = none ∧ c ∉ s.onlined ∧ c ∉ s.closedTransports
  | ServerEvent.online c =>
      (∃ id, s.admitted.lookup c = some id) ∧ c ∉ s.onlined ∧ c ∉ s.closedTransports
  | ServerEvent.close c =>
      (∃ id, s.admitted.lookup c = some id) ∧ c ∉ s.closedTransports
  | ServerEvent.startOk _ => True
  | ServerEvent.stopCall => True

/-- Trace validity: every event respects the library contract in the state
it is dispatched in. -/
def ValidTrace : ServerState → List ServerEvent → Prop
  | _, [] => True
  | s, e :: es => validEvent s e ∧ ValidTrace (serverStep s e) es

/-- Traces that contain no stop call. -/
def NoStop (evs : List ServerEvent) : Prop :=
  ∀ e ∈ evs, e ≠ ServerEvent.stopCall

theorem lookup_append_some {l1 l2 : List (Nat × Int)} {k : Nat} {v : Int}
    (h : l1.lookup k = some v) : (l1 ++ l2).lookup k = some v := by
  induction l1 with
  | nil => simp [List.lookup] at h
  | cons p t ih =>
    cases p with
    | mk a b =>
      by_cases hk : k = a
      · have hk2 : (k == a) = true := by simpa using hk
        simp [List.lookup, hk2] at h ⊢
        exact h
      · have hk2 : (k == a) = false := by simpa using hk
        simp [List.lookup, hk2] at h ⊢
        exact ih h

theorem lookup_append_none {l1 l2 : List (Nat × Int)} {k : Nat}
    (h : l1.lookup k = none) : (l1 ++ l2).lookup k = l2.lookup k := by
  induction l1 with
  | nil => simp
  | cons p t ih =>
    cases p with
    | mk a b =>
      by_cases hk : k = a
      · have hk2 : (k == a) = true := by simpa using hk
        simp [List.lookup, hk2] at h
      · have hk2 : (k == a) = false := by simpa using hk
        rw [List.lookup, hk2] at h
        show ((a, b) :: (t ++ l2)).lookup k = l2.lookup k
        rw [List.lookup, hk2]
        exact ih h

theorem mem_of_lookup_eq_some {l : List (Nat × Int)} {k : Nat} {v : Int}
    (h : l.lookup k = some v) : (k, v) ∈ l := by
  induction l with
  | nil => simp [List.lookup] at h
  | cons p t ih =>
    cases p with
    | mk a b =>
      by_cases hk : k = a
      · have hk2 : (k == a) = true := by simpa using hk
        simp [List.lookup, hk2] at h
        simp [hk, h]
      · have hk2 : (k == a) = false := by simpa using hk
        simp [List.lookup, hk2] at h
        exact List.mem_cons_of_mem _ (ih h)

theorem lookup_eq_none_iff {l : List (Nat × Int)} {k : Nat} :
    l.lookup k = none ↔ k ∉ l.map Prod.fst := by
  induction l with
  | nil => simp [List.lookup]
  | cons p t ih =>
    cases p with
    | mk a b =>
      by_cases hk : k = a
      · have hk2 : (k == a) = true := by simpa using hk
        simp [List.lookup, hk2, hk]
      · have hk2 : (k == a) = false := by simpa using hk
        simp [List.lookup, hk2, hk, ih]

theorem value_eq_of_mem_of_keys_nodup {l : List (Nat × Int)} {k : Nat} {v w : Int}
    (hn : (l.map Prod.fst).Nodup) (hv : (k, v) ∈ l) (hw : (k, w) ∈ l) : v = w := by
  induction l with
  | nil => cases hv
  | cons p t ih =>
    simp only [List.map_cons, List.nodup_cons] at hn
    rcases List.mem_cons.mp hv with hv1 | hv2
    · rcases List.mem_cons.mp hw with hw1 | hw2
      · rw [← hv1] at hw1
        have := congrArg Prod.snd hw1
        simpa using this.symm
      · exfalso
        apply hn.1
        have hm := List.mem_map_of_mem Prod.fst hw2
        have hf : p.1 = k := by
          have := congrArg Prod.fst hv1
          simpa using this.symm
        rw [hf]
        simpa using hm
    · rcases List.mem_cons.mp hw with hw1 | hw2
      · exfalso
        apply hn.1
        have hm := List.mem_map_of_mem Prod.fst hv2
        have hf : p.1 = k := by
          have := congrArg Prod.fst hw1
          simpa using this.symm
        rw [hf]
        simpa using hm
      · exact ih hn.2 hv2 hw2

theorem key_eq_of_mem_of_vals_nodup {l : List (Nat × Int)} {k j : Nat} {v : Int}
    (hn : (l.map Prod.snd).Nodup) (hk : (k, v) ∈ l) (hj : (j, v) ∈ l) : k = j := by
  induction l with
  | nil => cases hk
  | cons p t ih =>
    simp only [List.map_cons, List.nodup_cons] at hn
    rcases List.mem_cons.mp hk with hk1 | hk2
    · rcases List.mem_cons.mp hj with hj1 | hj2
      · rw [← hk1] at hj1
        have := congrArg Prod.fst hj1
        simpa using this.symm
      · exfalso
        apply hn.1
        have hm := List.mem_map_of_mem Prod.snd hj2
        have hf : p.2 = v := by
          have := congrArg Prod.snd hk1
          simpa using this.symm
        rw [hf]
        simpa using hm
    · rcases List.mem_cons.mp hj with hj1 | hj2
      · exfalso
        apply hn.1
        have hm := List.mem_map_of_mem Prod.snd hk2
        have hf : p.2 = v := by
          have := congrArg Prod.snd hj1
          simpa using this.symm
        rw [hf]
        simpa using hm
      · exact ih hn.2 hk2 hj2

/-- Helper: one attempt event preserves the completion bookkeeping: no
delivery before the promise settles, and never more than one delivery. -/
theorem attemptStep_preserves (st : AttemptState) (e : AttemptEvent)
    (h1 : st.settled = none → st.deliveries = [])
    (h2 : st.deliveries.length ≤ 1) :
    ((attemptStep st e).settled = none → (attemptStep st e).deliveries = []) ∧
    (attemptStep st e).deliveries.length ≤ 1 := by
  cases e with
  | online =>
    cases hs : st.settled with
    | some v => simp [attemptStep, attemptCompleted, hs, h2]
    | none => simp [attemptStep, attemptCompleted, hs, h1 hs]
  | error err =>
    cases err with
    | none => exact ⟨h1, h2⟩
    | some e =>
      by_cases hf : st.completedErrorInvoked
      · refine ⟨?_, by simpa [attemptStep, invokeErrorCompleted, hf] using h2⟩
        intro hs
        have hs2 : st.settled = none := by
          simpa [attemptStep, invokeErrorCompleted, hf] using hs
        simpa [attemptStep, invokeErrorCompleted, hf] using h1 hs2
      · cases hs : st.settled with
        | some v => simp [attemptStep, invokeErrorCompleted, hf, attemptCompleted, hs, h2]
        | none => simp [attemptStep, invokeErrorCompleted, hf, attemptCompleted, hs, h1 hs]

/-- Helper: the completion bookkeeping holds along any event sequence. -/
theorem attemptFold_deliveries (evs : List AttemptEvent) (st : AttemptState)
    (h1 : st.settled = none → st.deliveries = [])
    (h2 : st.deliveries.length ≤ 1) :
    (evs.foldl attemptStep st).deliveries.length ≤ 1 := by
  induction evs generalizing st with
  | nil => exact h2
  | cons e es ih =>
    have h := attemptStep_preserves st e h1 h2
    exact ih (attemptStep st e) h.1 h.2

/-- Helper: once the completedErrorInvoked flag is set, a sequence of error
events only appends to the error log. -/
theorem attemptFold_logs (es : List String) (st : AttemptState)
    (hf : st.completedErrorInvoked = true) :
    (es.map fun x => AttemptEvent.error (some x)).foldl attemptStep st =
      { st with errorLog := st.errorLog ++ es } := by
  induction es generalizing st with
  | nil => simp
  | cons a as ih =>
    simp only [List.map_cons, List.foldl_cons]
    rw [show attemptStep st (AttemptEvent.error (some a)) =
        { st with errorLog := st.errorLog ++ [a] } by
      simp [attemptStep, invokeErrorCompleted, hf]]
    rw [ih { st with errorLog := st.errorLog ++ [a] } hf]
    simp

/-- Claim C1: for every client connect attempt, at most one completion is
delivered to the caller whatever transport events follow submission, and on
an attempt whose transport emits only error events the first error is
delivered as the failure outcome while every subsequent error is only
logged, never delivered as a second outcome. -/
theorem connect_completion_at_most_once (evs : List AttemptEvent)
    (e : String) (es : List String) :
    (runAttempt evs).deliveries.length ≤ 1 ∧
    (runAttempt ((e :: es).map fun x => AttemptEvent.error (some x))).deliveries
      = [Except.error e] ∧
    (runAttempt ((e :: es).map fun x => AttemptEvent.error (some x))).errorLog = es := by
  have hrun : runAttempt ((e :: es).map fun x => AttemptEvent.error (some x)) =
      { completedErrorInvoked := true, settled := some (Except.error e),
        deliveries := [Except.error e], errorLog := [] ++ es } := by
    rw [runAttempt]
    simp only [List.map_cons, List.foldl_cons]
    rw [show attemptStep {} (AttemptEvent.error (some e)) =
        (⟨true, some (Except.error e), [Except.error e], []⟩ : AttemptState) from rfl]
    rw [attemptFold_logs es ⟨true, some (Except.error e), [Except.error e], []⟩ rfl]
  refine ⟨attemptFold_deliveries evs {} (fun _ => rfl) (by simp), ?_, ?_⟩
  · rw [hrun]
  · rw [hrun]
    simp

/-- Claim C4 counterexample: submitting connect twice from the fresh client
session, with no online event in between (the session is still connecting,
the client field is unset), does not return false on the second call and
does construct a second transport. -/
theorem connect_second_attempt_counterexample :
    ((connectSubmit {}).2.client = none ∧
      (connectSubmit {}).2.pendingAttempts = 1 ∧
      (connectSubmit {}).2.transportsCreated = 1) ∧
    (connectSubmit (connectSubmit {}).2).1 ≠ some false ∧
    (connectSubmit (connectSubmit {}).2).2.transportsCreated = 2 := by
  decide

/-- Claim C4 amended: a connect call on a session whose client field is set
(the online handler of an earlier attempt ran) completes with false and
changes nothing; a connect call while the client field is unset, including
while an earlier attempt is still connecting, is not guarded: it constructs
a new transport and initiates a connection with no immediate completion. -/
theorem connect_guard (st : ClientSessionState) :
    (st.client.isSome = true → connectSubmit st = (some false, st)) ∧
    (st.client = none →
      (connectSubmit st).1 = none ∧
      (connectSubmit st).2.transportsCreated = st.transportsCreated + 1 ∧
      (connectSubmit st).2.pendingAttempts = st.pendingAttempts + 1 ∧
      (connectSubmit st).2.client = st.client) := by
  constructor
  · intro h
    simp [connectSubmit, h]
  · intro h
    simp [connectSubmit, h]

/-- Witness for the amended claim C4 at concrete session states. -/
theorem connect_guard_witness :
    connectSubmit { client := some 7 } = (some false, { client := some 7 }) ∧
    (connectSubmit {}).1 = none := by
  exact ⟨(connect_guard { client := some 7 }).1 (by decide),
    ((connect_guard {}).2 rfl).1⟩

/-- Claim C2 counterexample: a stop of a server holding one registered
online connection succeeds (true is returned, stopped is emitted, the
registry is discarded), yet the connection in the registry is never closed
by stopSync: the set of transports this code disconnected stays empty. -/
theorem stop_close_counterexample :
    (serverRun [ServerEvent.startOk "srv", ServerEvent.connection 0,
        ServerEvent.online 0]).connections = some [minSafeInteger] ∧
    (stopSync (serverRun [ServerEvent.startOk "srv", ServerEvent.connection 0,
        ServerEvent.online 0]) false).1 = Except.ok (StopResult.result true) ∧
    (stopSync (serverRun [ServerEvent.startOk "srv", ServerEvent.connection 0,
        ServerEvent.online 0]) false).2.connections = none ∧
    (stopSync (serverRun [ServerEvent.startOk "srv", ServerEvent.connection 0,
        ServerEvent.online 0]) false).2.stoppedEmits = 1 ∧
    (stopSync (serverRun [ServerEvent.startOk "srv", ServerEvent.connection 0,
        ServerEvent.online 0]) false).2.closedTransports = [] := by
  refine ⟨?_, ?_, ?_, ?_, ?_⟩ <;> rfl

/-- Claim C2 amended: a successful stop calls stop and close on the
underlying library server, discards the registry, emits a stopped
notification and returns true, with the stopping flag cleared on return;
stopSync performs no per connection close: the registry records are
discarded without their transports being disconnected by this code. -/
theorem stopSync_success_effects (st : ServerState)
    (h1 : st.isStopping = false) (h2 : st.serverRunning = true) :
    stopSync st false =
      (Except.ok (StopResult.result true),
        { st with
          isStopping := false,
          serverRunning := false,
          connections := none,
          stoppedEmits := st.stoppedEmits + 1,
          libServerStopCalls := st.libServerStopCalls + 1 }) ∧
    (stopSync st false).2.closedTransports = st.closedTransports := by
  constructor
  · simp [stopSync, h1, h2]
  · simp [stopSync, h1, h2]

/-- Witness for the amended claim C2 at a concrete running server state. -/
theorem stopSync_success_effects_witness :
    (stopSync (serverRun [ServerEvent.startOk "srv", ServerEvent.connection 1,
        ServerEvent.online 1]) false).1 = Except.ok (StopResult.result true) ∧
    (stopSync (serverRun [ServerEvent.startOk "srv", ServerEvent.connection 1,
        ServerEvent.online 1]) false).2.closedTransports = [] := by
  have h := stopSync_success_effects (serverRun [ServerEvent.startOk "srv",
    ServerEvent.connection 1, ServerEvent.online 1]) (by decide) (by decide)
  exact ⟨by rw [h.1], h.2.trans rfl⟩

/-- Claim C5: the stop result protocol. A stop entered while another stop
is in flight returns the null in-progress sentinel, which is neither true
nor false, and performs no cleanup (the state is unchanged); a stop with no
running server resolves false; and the sequence start, start, stop, stop on
a fresh server resolves true, false, true, false in that order. -/
theorem stop_result_protocol :
    (∀ (st : ServerState) (b : Bool), st.isStopping = true →
      stopSync st b = (Except.ok StopResult.inProgress, st)) ∧
    (∀ (st : ServerState) (b : Bool), st.isStopping = false →
      st.serverRunning = false →
      (stopSync st b).1 = Except.ok (StopResult.result false)) ∧
    ((serverStart {} (ServerOptions.mk (some "example.com") (some 5222))
        "ctrl" true).1 = Except.ok true ∧
      (serverStart (serverStart {} (ServerOptions.mk (some "example.com")
          (some 5222)) "ctrl" true).2 (ServerOptions.mk (some "example.com")
          (some 5222)) "ctrl" true).1 = Except.ok false ∧
      (stopSync (serverStart (serverStart {} (ServerOptions.mk
          (some "example.com") (some 5222)) "ctrl" true).2 (ServerOptions.mk
          (some "example.com") (some 5222)) "ctrl" true).2 false).1 =
        Except.ok (StopResult.result true) ∧
      (stopSync (stopSync (serverStart (serverStart {} (ServerOptions.mk
          (some "example.com") (some 5222)) "ctrl" true).2 (ServerOptions.mk
          (some "example.com") (some 5222)) "ctrl" true).2 false).2
          false).1 = Except.ok (StopResult.result false)) := by
  refine ⟨?_, ?_, rfl, rfl, rfl, rfl⟩
  · intro st b h
    simp [stopSync, h]
  · intro st b h1 h2
    simp [stopSync, h1, h2]

/-- Witness for claim C5 at concrete server states. -/
theorem stop_result_protocol_witness :
    stopSync { isStopping := true } true =
      (Except.ok StopResult.inProgress, { isStopping := true }) ∧
    (stopSync {} false).1 = Except.ok (StopResult.result false) := by
  exact ⟨stop_result_protocol.1 { isStopping := true } true rfl,
    stop_result_protocol.2.1 {} false rfl rfl⟩

/-- Claim C9: getClientConnections dereferences the registry, so before the
first successful start (the field is undefined) and after a successful stop
(the field was set to null) the call raises a TypeError rather than
returning an empty snapshot; while the server runs it returns a freshly
allocated copy of the registry. -/
theorem getClientConnections_raises_when_absent :
    (∀ st : ServerState, st.connections = none →
      getClientConnections st = Except.error ()) ∧
    (∀ (st : ServerState) (l : List Int), st.connections = some l →
      getClientConnections st = Except.ok l) ∧
    ({} : ServerState).connections = none ∧
    (serverStart {} {} "x" true).2.connections = some [] ∧
    (∀ st : ServerState, st.isStopping = false → st.serverRunning = true →
      (stopSync st false).2.connections = none) := by
  refine ⟨?_, ?_, rfl, rfl, ?_⟩
  · intro st h
    simp [getClientConnections, h]
  · intro st l h
    simp [getClientConnections, h]
  · intro st h1 h2
    simp [stopSync, h1, h2]

/-- Witness for claim C9 at concrete server states. -/
theorem getClientConnections_raises_witness :
    getClientConnections {} = Except.error () ∧
    getClientConnections (serverStart {} {} "x" true).2 = Except.ok [] := by
  exact ⟨getClientConnections_raises_when_absent.1 {} rfl,
    getClientConnections_raises_when_absent.2.1 (serverStart {} {} "x" true).2 [] rfl⟩

/-- Claim C10: stopSync entered with the stopping flag clear leaves the
flag clear on every return path: the early false return, the exception
propagated from the library stop call, and the successful stop all reset it
in the finally block, so the stopping state never outlives the call. -/
theorem stopping_flag_resets (st : ServerState) (b : Bool)
    (h : st.isStopping = false) :
    (stopSync st b).2.isStopping = false := by
  cases hr : st.serverRunning <;> cases hb : b <;> simp [stopSync, h, hr, hb]

/-- Witness for claim C10 at a concrete server state with a throwing
library stop. -/
theorem stopping_flag_resets_witness :
    (stopSync { serverRunning := true } true).2.isStopping = false :=
  stopping_flag_resets { serverRunning := true } true rfl

/-- Claim C3 counterexample: the byte-streams request satisfies the premise
of the claim (iq get whose first child is a query with a recognized
namespace), but the response of the resolved handler does not satisfy the
claimed shape: the byte-streams handler never appends the query child. -/
theorem iq_response_shape_counterexample :
    specC3Premise byteStreamsRequest = true ∧
    specC3Conclusion byteStreamsRequest (iqHandle byteStreamsRequest) = false ∧
    (iqHandle byteStreamsRequest).children = [] := by
  refine ⟨by decide, by decide, rfl⟩

/-- Claim C3 amended: for an iq get whose first child is a query element,
the disco info and disco items handlers produce the claimed response (iq
result, to and from swapped, same id, query child echoing the namespace);
the byte-streams handler produces the swapped result without any query
child; the roster handler produces the result with the query child but
without the from attribute; and the streams handler produces nothing, so
the generic error stanza is sent instead. -/
theorem iq_get_response_shape (req child : Stanza)
    (hhead : req.children.head? = some child)
    (hty : normalizeOpt (req.attr "type") = "get")
    (hname : normalizeStr child.name = "query") :
    (normalizeOpt (child.attr "xmlns") = infoNs →
      iqHandle req = Stanza.mk "iq"
        [("type", some "result"), ("from", req.attr "to"),
         ("to", req.attr "from"), ("id", req.attr "id")]
        [Stanza.mk "query" [("xmlns", child.attr "xmlns")] []]) ∧
    (normalizeOpt (child.attr "xmlns") = itemsNs →
      iqHandle req = Stanza.mk "iq"
        [("type", some "result"), ("from", req.attr "to"),
         ("to", req.attr "from"), ("id", req.attr "id")]
        [Stanza.mk "query" [("xmlns", child.attr "xmlns")] []]) ∧
    (normalizeOpt (child.attr "xmlns") = byteStreamsNs →
      iqHandle req = Stanza.mk "iq"
        [("type", some "result"), ("from", req.attr "to"),
         ("to", req.attr "from"), ("id", req.attr "id")]
        []) ∧
    (normalizeOpt (child.attr "xmlns") = rosterNs →
      iqHandle req = Stanza.mk "iq"
        [("type", some "result"), ("to", req.attr "from"), ("id", req.attr "id")]
        [Stanza.mk "query" [("xmlns", child.attr "xmlns")] []]) ∧
    (normalizeOpt (child.attr "xmlns") = streamsNs →
      iqHandle req = iqErrorResponse) := by
  refine ⟨fun hx => ?_, fun hx => ?_, fun hx => ?_, fun hx => ?_, fun hx => ?_⟩
  · simp [iqHandle, resolveIqHandler, hty, hhead, hname, hx,
      handleStanza_discoInfo, infoNs]
  · simp [iqHandle, resolveIqHandler, hty, hhead, hname, hx,
      handleStanza_discoItems, infoNs, itemsNs]
  · simp [iqHandle, resolveIqHandler, hty, hhead, hname, hx,
      handleStanza_byteStreams, infoNs, itemsNs, byteStreamsNs]
  · simp [iqHandle, resolveIqHandler, hty, hhead, hname, hx,
      handleStanza_jabber_iq_roaster, infoNs, itemsNs, byteStreamsNs, rosterNs]
  · simp [iqHandle, resolveIqHandler, hty, hhead, hname, hx,
      handleStanza_streams, infoNs, itemsNs, byteStreamsNs, rosterNs, streamsNs]

/-- Witness for the amended claim C3 at a concrete disco info request. -/
theorem iq_get_response_shape_witness :
    iqHandle (Stanza.mk "iq"
      [("type", some "get"), ("id", some "1"),
       ("from", some "a@x"), ("to", some "b@x")]
      [Stanza.mk "query" [("xmlns", some "http://jabber.org/protocol/disco#info")] []]) =
    Stanza.mk "iq"
      [("type", some "result"), ("from", some "b@x"),
       ("to", some "a@x"), ("id", some "1")]
      [Stanza.mk "query" [("xmlns", some "http://jabber.org/protocol/disco#info")] []] := by
  have h := (iq_get_response_shape
    (Stanza.mk "iq"
      [("type", some "get"), ("id", some "1"),
       ("from", some "a@x"), ("to", some "b@x")]
      [Stanza.mk "query" [("xmlns", some "http://jabber.org/protocol/disco#info")] []])
    (Stanza.mk "query" [("xmlns", some "http://jabber.org/protocol/disco#info")] [])
    rfl (by decide) (by decide)).1 (by decide)
  exact h

/-- Helper: every event other than a connection event leaves the admitted
list and the id counter unchanged. -/
theorem serverStep_admitted_eq (s : ServerState) (e : ServerEvent)
    (h : ∀ c, e ≠ ServerEvent.connection c) :
    (serverStep s e).admitted = s.admitted ∧
    (serverStep s e).nextClientConnectionId = s.nextClientConnectionId := by
  cases e with
  | connection c => exact absurd rfl (h c)
  | online c =>
    cases hl : s.admitted.lookup c with
    | none => simp [serverStep, onOnline, hl]
    | some id =>
      cases hc : s.connections with
      | none => simp [serverStep, onOnline, hl, hc]
      | some l => simp [serverStep, onOnline, hl, hc]
  | close c =>
    cases hl : s.admitted.lookup c with
    | none => simp [serverStep, onClose, hl]
    | some id =>
      cases hc : s.connections with
      | none => simp [serverStep, onClose, hl, hc]
      | some l => simp [serverStep, onClose, hl, hc]
  | startOk n =>
    by_cases hr : s.serverRunning <;> simp [serverStep, serverStart, hr]
  | stopCall =>
    by_cases hs : s.isStopping
    · simp [serverStep, stopSync, hs]
    · by_cases hr : s.serverRunning <;> simp [serverStep, stopSync, hs, hr]

/-- Helper: one event preserves strict increase of the assigned ids in
arrival order and their bound by the counter. -/
theorem serverStep_ids (s : ServerState) (e : ServerEvent)
    (h1 : (s.admitted.map Prod.snd).Pairwise (· < ·))
    (h2 : IdsBounded s) :
    ((serverStep s e).admitted.map Prod.snd).Pairwise (· < ·) ∧
    IdsBounded (serverStep s e) := by
  by_cases hc : ∃ c, e = ServerEvent.connection c
  · obtain ⟨c, rfl⟩ := hc
    by_cases hs : s.isStopping
    · constructor
      · simpa [serverStep, onConnection, hs] using h1
      · intro p hp
        simp [serverStep, onConnection, hs] at hp ⊢
        exact h2 p hp
    · constructor
      · rw [show (serverStep s (ServerEvent.connection c)).admitted =
            s.admitted ++ [(c, s.nextClientConnectionId)] by
          simp [serverStep, onConnection, hs]]
        rw [List.map_append]
        refine List.pairwise_append.mpr ⟨h1, List.pairwise_singleton _ _, ?_⟩
        intro a ha b hb
        simp at hb
        subst hb
        obtain ⟨p, hp, rfl⟩ := List.mem_map.mp ha
        exact h2 p hp
      · intro p hp
        rw [show (serverStep s (ServerEvent.connection c)).admitted =
            s.admitted ++ [(c, s.nextClientConnectionId)] by
          simp [serverStep, onConnection, hs]] at hp
        rw [show (serverStep s (ServerEvent.connection c)).nextClientConnectionId =
            s.nextClientConnectionId + 1 by
          simp [serverStep, onConnection, hs]]
        rcases List.mem_append.mp hp with hold | hnew
        · exact lt_trans (h2 p hold) (lt_add_one _)
        · simp at hnew
          subst hnew
          exact lt_add_one _
  · have hne : ∀ d, e ≠ ServerEvent.connection d := by
      intro d hd
      exact hc ⟨d, hd⟩
    have heq := serverStep_admitted_eq s e hne
    constructor
    · rw [heq.1]
      exact h1
    · intro p hp
      rw [heq.1] at hp
      rw [heq.2]
      exact h2 p hp

/-- Claim C8 counterexample: two connections arrive in the order tag 1 then
tag 2 and come online in the opposite order; the one that onlines later
(tag 1) carries the strictly smaller id, because ids are handed out at the
connection event, not at the online transition (the registry, pushed in
online order, holds the ids in decreasing order). -/
theorem id_assignment_counterexample :
    (serverRun [ServerEvent.startOk "x", ServerEvent.connection 1,
      ServerEvent.connection 2, ServerEvent.online 2,
      ServerEvent.online 1]).onlined = [2, 1] ∧
    (serverRun [ServerEvent.startOk "x", ServerEvent.connection 1,
      ServerEvent.connection 2, ServerEvent.online 2,
      ServerEvent.online 1]).admitted.lookup 1 = some minSafeInteger ∧
    (serverRun [ServerEvent.startOk "x", ServerEvent.connection 1,
      ServerEvent.connection 2, ServerEvent.online 2,
      ServerEvent.online 1]).admitted.lookup 2 = some (minSafeInteger + 1) ∧
    (serverRun [ServerEvent.startOk "x", ServerEvent.connection 1,
      ServerEvent.connection 2, ServerEvent.online 2,
      ServerEvent.online 1]).connections =
      some [minSafeInteger + 1, minSafeInteger] ∧
    minSafeInteger < minSafeInteger + 1 := by
  refine ⟨by decide, by decide, by decide, by decide, by decide⟩

/-- Claim C8 amended: connection ids are assigned at the connection event,
when the ClientConnection record is built, from a module level counter that
only increments: along any event trace the ids of the admitted connections
are strictly increasing in arrival order, pairwise distinct (never reused
within the process lifetime), and all below the counter; the order in which
sessions later reach online does not influence the ids. -/
theorem connection_ids_monotone (evs : List ServerEvent) :
    ((serverRun evs).admitted.map Prod.snd).Pairwise (· < ·) ∧
    ((serverRun evs).admitted.map Prod.snd).Nodup ∧
    IdsBounded (serverRun evs) := by
  have main : ∀ (l : List ServerEvent) (s : ServerState),
      (s.admitted.map Prod.snd).Pairwise (· < ·) → IdsBounded s →
      ((l.foldl serverStep s).admitted.map Prod.snd).Pairwise (· < ·) ∧
      IdsBounded (l.foldl serverStep s) := by
    intro l
    induction l with
    | nil => intro s h1 h2; exact ⟨h1, h2⟩
    | cons e es ih =>
      intro s h1 h2
      have hstep := serverStep_ids s e h1 h2
      exact ih _ hstep.1 hstep.2
  have h := main evs {} (by simp) (by intro p hp; cases hp)
  exact ⟨h.1, h.1.imp ne_of_lt, h.2⟩

/-- Witness for the amended claim C8 at a concrete trace. -/
theorem connection_ids_monotone_witness :
    ((serverRun [ServerEvent.startOk "x", ServerEvent.connection 4,
      ServerEvent.connection 9]).admitted.map Prod.snd).Pairwise (· < ·) ∧
    ((serverRun [ServerEvent.startOk "x", ServerEvent.connection 4,
      ServerEvent.connection 9]).admitted.map Prod.snd).Nodup ∧
    IdsBounded (serverRun [ServerEvent.startOk "x", ServerEvent.connection 4,
      ServerEvent.connection 9]) :=
  connection_ids_monotone [ServerEvent.startOk "x", ServerEvent.connection 4,
    ServerEvent.connection 9]

/-- Claim C6 counterexample: a connection admitted before stop completes
its handshake after the stop has run; the claim requires it to be rejected
with its transport closed immediately, but the code closes nothing: the
online handler merely throws on the discarded registry and the error is
logged, leaving the transport open (the session stays online and is in no
registry). -/
theorem admission_after_stop_counterexample :
    (serverRun [ServerEvent.startOk "srv", ServerEvent.connection 0,
      ServerEvent.stopCall, ServerEvent.online 0]).onlined = [0] ∧
    (serverRun [ServerEvent.startOk "srv", ServerEvent.connection 0,
      ServerEvent.stopCall, ServerEvent.online 0]).closedTransports = [] ∧
    (serverRun [ServerEvent.startOk "srv", ServerEvent.connection 0,
      ServerEvent.stopCall, ServerEvent.online 0]).connections = none ∧
    (serverRun [ServerEvent.startOk "srv", ServerEvent.connection 0,
      ServerEvent.stopCall, ServerEvent.online 0]).errorLogLines = 1 := by
  refine ⟨by decide, by decide, by decide, by decide⟩

/-- Claim C6 amended: a connection that arrives while the stopping flag is
set is disconnected immediately and never admitted, so no handler exists
for it and a later online event for an unadmitted tag changes nothing (it
can never enter the registry); a connection that completes its handshake
after a stop discarded the registry is not registered either (the push
throws and is only logged) and the registry stays discarded, but its
transport is not closed by the server. -/
theorem admission_during_stop (st : ServerState) (c : Nat)
    (h : st.isStopping = true) :
    onConnection st c =
      { st with closedTransports := st.closedTransports ++ [c] } ∧
    (∀ s : ServerState, s.admitted.lookup c = none → onOnline s c = s) ∧
    (∀ s : ServerState, s.connections = none →
      (onOnline s c).connections = none ∧
      (onOnline s c).closedTransports = s.closedTransports) := by
  refine ⟨by simp [onConnection, h], ?_, ?_⟩
  · intro s hl
    simp [onOnline, hl]
  · intro s hc
    cases hl : s.admitted.lookup c with
    | none => simp [onOnline, hl, hc]
    | some id => simp [onOnline, hl, hc]

/-- Witness for the amended claim C6 at concrete states. -/
theorem admission_during_stop_witness :
    onConnection { isStopping := true } 3 =
      { isStopping := true, closedTransports := [3] } ∧
    onOnline ({} : ServerState) 3 = {} :=
  ⟨(admission_during_stop { isStopping := true } 3 rfl).1,
    (admission_during_stop { isStopping := true } 3 rfl).2.1 {} rfl⟩

/-- Helper: one valid non-stop event preserves the registry invariant. -/
theorem serverInv_step (s : ServerState) (e : ServerEvent)
    (hinv : ServerInv s) (hv : validEvent s e)
    (hns : e ≠ ServerEvent.stopCall) :
    ServerInv (serverStep s e) := by
  obtain ⟨hstop, hrun, hbound, hidnd, htagnd, l, hconn, hiff⟩ := hinv
  cases e with
  | connection c =>
    obtain ⟨hlk, hno, hnc⟩ := hv
    have hstate : serverStep s (ServerEvent.connection c) =
        { s with
          admitted := s.admitted ++ [(c, s.nextClientConnectionId)],
          nextClientConnectionId := s.nextClientConnectionId + 1 } := by
      simp [serverStep, onConnection, hstop]
    rw [hstate]
    refine ⟨hstop, hrun, ?_, ?_, ?_, l, hconn, ?_⟩
    · intro p hp
      simp only [List.mem_append, List.mem_singleton] at hp
      rcases hp with hold | hnew
      · exact lt_trans (hbound p hold) (lt_add_one _)
      · subst hnew
        exact lt_add_one _
    · show ((s.admitted ++ [(c, s.nextClientConnectionId)]).map Prod.snd).Nodup
      rw [List.map_append]
      refine List.nodup_append.mpr ⟨hidnd, by simp, ?_⟩
      intro a ha hb
      simp only [List.map_cons, List.map_nil, List.mem_singleton] at hb
      subst hb
      obtain ⟨p, hp, hps⟩ := List.mem_map.mp ha
      exact absurd hps (ne_of_lt (hbound p hp))
    · show ((s.admitted ++ [(c, s.nextClientConnectionId)]).map Prod.fst).Nodup
      rw [List.map_append]
      refine List.nodup_append.mpr ⟨htagnd, by simp, ?_⟩
      intro a ha hb
      simp only [List.map_cons, List.map_nil, List.mem_singleton] at hb
      subst hb
      exact absurd ha (lookup_eq_none_iff.mp hlk)
    · intro id
      constructor
      · intro hid
        obtain ⟨d, hdm, hdo, hdc⟩ := (hiff id).mp hid
        exact ⟨d, List.mem_append_left _ hdm, hdo, hdc⟩
      · rintro ⟨d, hdm, hdo, hdc⟩
        rcases List.mem_append.mp hdm with hold | hnew
        · exact (hiff id).mpr ⟨d, hold, hdo, hdc⟩
        · simp only [List.mem_singleton, Prod.mk.injEq] at hnew
          exact absurd (hnew.1 ▸ hdo) hno
  | online c =>
    obtain ⟨⟨id, hlk⟩, hno, hnc⟩ := hv
    have hstate : serverStep s (ServerEvent.online c) =
        { s with
          onlined := s.onlined ++ [c],
          connections := some (l ++ [id]) } := by
      simp [serverStep, onOnline, hlk, hconn]
    rw [hstate]
    refine ⟨hstop, hrun, hbound, hidnd, htagnd, l ++ [id], rfl, ?_⟩
    intro id2
    constructor
    · intro hid2
      rcases List.mem_append.mp hid2 with hl2 | hr2
      · obtain ⟨d, hdm, hdo, hdc⟩ := (hiff id2).mp hl2
        exact ⟨d, hdm, List.mem_append_left _ hdo, hdc⟩
      · simp only [List.mem_singleton] at hr2
        subst hr2
        exact ⟨c, mem_of_lookup_eq_some hlk,
          List.mem_append_right _ (by simp), hnc⟩
    · rintro ⟨d, hdm, hdo, hdc⟩
      rcases List.mem_append.mp hdo with hdol | hdoc
      · exact List.mem_append_left _ ((hiff id2).mpr ⟨d, hdm, hdol, hdc⟩)
      · simp only [List.mem_singleton] at hdoc
        subst hdoc
        have : id2 = id :=
          value_eq_of_mem_of_keys_nodup htagnd hdm (mem_of_lookup_eq_some hlk)
        subst this
        exact List.mem_append_right _ (by simp)
  | close c =>
    obtain ⟨⟨id, hlk⟩, hnc⟩ := hv
    have hstate : serverStep s (ServerEvent.close c) =
        { s with
          closedTransports := s.closedTransports ++ [c],
          connections := some (l.filter (fun x => x != id)) } := by
      simp [serverStep, onClose, hlk, hconn]
    rw [hstate]
    refine ⟨hstop, hrun, hbound, hidnd, htagnd,
      l.filter (fun x => x != id), rfl, ?_⟩
    intro id2
    constructor
    · intro hid2
      obtain ⟨hid2l, hid2ne⟩ := List.mem_filter.mp hid2
      have hne2 : id2 ≠ id := by simpa using hid2ne
      obtain ⟨d, hdm, hdo, hdc⟩ := (hiff id2).mp hid2l
      have hdc2 : d ≠ c := by
        intro hdc3
        subst hdc3
        exact hne2 (value_eq_of_mem_of_keys_nodup htagnd hdm
          (mem_of_lookup_eq_some hlk))
      refine ⟨d, hdm, hdo, ?_⟩
      intro hmem
      rcases List.mem_append.mp hmem with h1 | h2
      · exact hdc h1
      · simp only [List.mem_singleton] at h2
        exact hdc2 h2
    · rintro ⟨d, hdm, hdo, hdc⟩
      have hdnc : d ∉ s.closedTransports := by
        intro h1
        exact hdc (List.mem_append_left _ h1)
      have hdnec : d ≠ c := by
        intro h1
        subst h1
        exact hdc (List.mem_append_right _ (by simp))
      have hid2l : id2 ∈ l := (hiff id2).mpr ⟨d, hdm, hdo, hdnc⟩
      have hne2 : id2 ≠ id := by
        intro h1
        subst h1
        exact hdnec (key_eq_of_mem_of_vals_nodup hidnd hdm
          (mem_of_lookup_eq_some hlk))
      exact List.mem_filter.mpr ⟨hid2l, by simpa using hne2⟩
  | startOk n =>
    have hstate : serverStep s (ServerEvent.startOk n) = s := by
      simp [serverStep, serverStart, hrun]
    rw [hstate]
    exact ⟨hstop, hrun, hbound, hidnd, htagnd, l, hconn, hiff⟩
  | stopCall => exact absurd rfl hns

/-- Claim C7 counterexample: after a stop, the session of tag 5 is still
online (no code closed it) while the registry holds no record of it, and
there is no live registry at all, so the claimed two way correspondence
between registry membership and the online state is violated at this
point of execution. -/
theorem registry_invariant_counterexample :
    (serverRun [ServerEvent.startOk "x", ServerEvent.connection 5,
      ServerEvent.online 5, ServerEvent.stopCall]).onlined = [5] ∧
    (serverRun [ServerEvent.startOk "x", ServerEvent.connection 5,
      ServerEvent.online 5, ServerEvent.stopCall]).closedTransports = [] ∧
    (serverRun [ServerEvent.startOk "x", ServerEvent.connection 5,
      ServerEvent.online 5, ServerEvent.stopCall]).connections = none ∧
    ¬ RegMatch (serverRun [ServerEvent.startOk "x", ServerEvent.connection 5,
      ServerEvent.online 5, ServerEvent.stopCall]) := by
  refine ⟨by decide, by decide, by decide, ?_⟩
  rintro ⟨l, hl, _⟩
  rw [show (serverRun [ServerEvent.startOk "x", ServerEvent.connection 5,
    ServerEvent.online 5, ServerEvent.stopCall]).connections = none by decide] at hl
  exact Option.noConfusion hl

/-- Claim C7 amended: between a successful start and the next stop call,
the registry correspondence is an invariant of every event: a record id is
in the registry exactly when its admitted session has fired online and its
transport has not been closed, the registry being mutated only by the
online handler (insert), the close handler (remove) and the start and stop
paths (create and discard); a stop call discards the registry without
closing the still online sessions, which breaks the correspondence (see the
counterexample), so the invariant is stated for stop free traces. -/
theorem registry_matches_online (evs : List ServerEvent) (s0 : ServerState)
    (h0 : ServerInv s0) (hv : ValidTrace s0 evs) (hns : NoStop evs) :
    ServerInv (evs.foldl serverStep s0) := by
  induction evs generalizing s0 with
  | nil => exact h0
  | cons e es ih =>
    obtain ⟨hve, hvt⟩ := hv
    have hne : e ≠ ServerEvent.stopCall := hns e (List.mem_cons_self e es)
    have hns2 : NoStop es := fun d hd => hns d (List.mem_cons_of_mem e hd)
    exact ih (serverStep s0 e) (serverInv_step s0 e h0 hve hne) hvt hns2

/-- Witness for the amended claim C7: the invariant holds after a start
followed by an admission and its online transition. -/
theorem registry_matches_online_witness :
    ServerInv (([ServerEvent.connection 0, ServerEvent.online 0]).foldl
      serverStep (serverStart {} {} "w" true).2) := by
  apply registry_matches_online
  · have hadm : (serverStart {} {} "w" true).2.admitted = ([] : List (Nat × Int)) := rfl
    refine ⟨rfl, rfl, ?_, ?_, ?_, [], rfl, ?_⟩
    · intro p hp
      rw [hadm] at hp
      cases hp
    · rw [hadm]
      simp
    · rw [hadm]
      simp
    · intro id
      rw [hadm]
      simp
  · refine ⟨⟨rfl, by simp [serverStart], by simp [serverStart]⟩,
      ⟨⟨minSafeInteger, rfl⟩, ?_, ?_⟩, trivial⟩
    · show 0 ∉ (serverStep (serverStart {} {} "w" true).2
        (ServerEvent.connection 0)).onlined
      decide
    · show 0 ∉ (serverStep (serverStart {} {} "w" true).2
        (ServerEvent.connection 0)).closedTransports
      decide
  · intro e he
    fin_cases he <;> decide
